import Mathlib

/-!
Verification of the seersdk-rs RBK client core: a shallow embedding of the
frame codec (`src/protocol.rs`) and of the per-port connection engine
(`src/port_client.rs`), together with theorems settling the spec claims.

Byte streams are modelled as `List Nat` (each element a `u8` value); machine
integers are modelled as `Nat`/`Int` with explicit wrapping where the Rust
code casts.  Frame bodies are kept at the byte level: the Rust decoder applies
`String::from_utf8_lossy` to the body bytes, which is the identity on the
valid-UTF-8 bodies all round-trip claims quantify over.
-/

/-! ## Frame codec (src/protocol.rs) -/

/-- Big-endian byte pair of a `u16` value (Rust `put_u16`).  For arguments
`< 2^16` this is exactly the two bytes Rust writes. -/
def u16be (n : Nat) : List Nat := [n / 256 % 256, n % 256]

/-- Big-endian byte quadruple of a `u32` value (Rust `put_u32`).  Each byte is
reduced `% 256`, so the output agrees with Rust's truncating `as u32` cast for
every `Nat` argument. -/
def u32be (n : Nat) : List Nat :=
  [n / 16777216 % 256, n / 65536 % 256, n / 256 % 256, n % 256]

/-- `encode_request` from `src/protocol.rs`: start mark `0x5A`, version `0x01`,
`flow_no` (u16 BE), `body_len` (u32 BE, derived from the body), `api_no`
(u16 BE), six reserved zero bytes, then the raw body bytes. -/
def encode_request (api_no : Nat) (body : List Nat) (flow_no : Nat) : List Nat :=
  0x5A :: 0x01 :: (u16be flow_no ++ u32be body.length ++ u16be api_no ++
    [0, 0, 0, 0, 0, 0] ++ body)

/-- `RbkFrame` from `src/frame.rs` (body kept as its byte sequence). -/
structure RbkFrame where
  flow_no : Nat
  api_no : Nat
  body_str : List Nat
deriving DecidableEq, Repr

/-- Decoder state `RbkDecoder` from `src/protocol.rs`.  `body_size` is the
Rust `i32` field (negative means "header not yet parsed"). -/
structure RbkDecoder where
  started : Bool
  flow_no : Nat
  api_no : Nat
  body_size : Int
deriving DecidableEq, Repr

/-- `RbkDecoder::new`. -/
def RbkDecoder.new : RbkDecoder := ⟨false, 0, 0, -1⟩

/-- Rust `u32 as i32`: values `≥ 2^31` become negative. -/
def i32OfU32 (n : Nat) : Int :=
  if n % 4294967296 < 2147483648 then (n % 4294967296 : Int)
  else (n % 4294967296 : Int) - 4294967296

/-- Rust `i32 as usize` on a 64-bit target: sign-extend, then reinterpret. -/
def usizeOfI32 (i : Int) : Nat := (i % 18446744073709551616).toNat

/-- The start-mark scan of `RbkDecoder::decode` (the `while buf.has_remaining()`
loop): consume bytes from the front until a `0x5A` byte is consumed, returning
the bytes after it, or `none` when the whole buffer was consumed without
finding the mark. -/
def scanStart : List Nat → Option (List Nat)
  | [] => none
  | b :: rest => if b = 0x5A then some rest else scanStart rest

/-- Read byte `i` of a buffer.  The default `0` is never observable: every use
below is guarded by a length check, exactly as the Rust reads are guarded by
`buf.remaining() < 15`. -/
def byteAt (l : List Nat) (i : Nat) : Nat := (l.drop i).headD 0

/-- The header-parsing phase of `RbkDecoder::decode`: requires 15 buffered
bytes (after the already-consumed start mark), reads and discards the version
byte, then reads `flow_no` (u16 BE), `body_len` (u32 BE), `api_no` (u16 BE)
and skips the 6 reserved bytes, consuming 15 bytes in total. -/
def parseHeader (b : List Nat) : Option (Nat × Nat × Nat × List Nat) :=
  if b.length < 15 then none
  else
    some (byteAt b 1 * 256 + byteAt b 2,
      byteAt b 3 * 16777216 + byteAt b 4 * 65536 + byteAt b 5 * 256 + byteAt b 6,
      byteAt b 7 * 256 + byteAt b 8,
      b.drop 15)

/-- `RbkDecoder::decode` from `src/protocol.rs`.  Returns the decoded frame (if
a complete one was available), the updated decoder state, and the remaining
buffer contents.  The source wraps the body in `loop { ... }`, but every path
of the loop body ends in a `return`, so a single pass is faithful.  Phases:
(a) if not `started`, scan for the start mark, consuming everything up to and
including it (consuming the whole buffer if absent); (b) if `body_size < 0`,
parse the 15 remaining header bytes, storing `body_len as i32` in `body_size`;
(c) if fewer than `body_size as usize` bytes remain, report no frame,
otherwise split off the body, emit the frame and reset the state. -/
def RbkDecoder.decode (d : RbkDecoder) (buf : List Nat) :
    Option RbkFrame × RbkDecoder × List Nat :=
  match (if d.started then some buf else scanStart buf) with
  | none => (none, d, [])
  | some b1 =>
    match (if d.body_size < 0 then
            match parseHeader b1 with
            | none => none
            | some (f, n, a, r) => some ((⟨true, f, a, i32OfU32 n⟩ : RbkDecoder), r)
          else some ((⟨true, d.flow_no, d.api_no, d.body_size⟩ : RbkDecoder), b1)) with
    | none => (none, ⟨true, d.flow_no, d.api_no, d.body_size⟩, b1)
    | some (d2, b2) =>
      if b2.length < usizeOfI32 d2.body_size then (none, d2, b2)
      else
        (some ⟨d2.flow_no, d2.api_no, b2.take (usizeOfI32 d2.body_size)⟩,
          RbkDecoder.new, b2.drop (usizeOfI32 d2.body_size))

/-- Fuel-indexed drain loop: call `decode` repeatedly until it reports no
frame, collecting the decoded frames in order.  This is how both the
background reader (`read_loop`'s `while let Some(frame) = decoder.decode`)
and the spec's "drain after each chunk" use the decoder. -/
def drainFuel : Nat → RbkDecoder → List Nat → List RbkFrame × RbkDecoder × List Nat
  | 0, d, buf => ([], d, buf)
  | fuel + 1, d, buf =>
    match d.decode buf with
    | (none, d1, b1) => ([], d1, b1)
    | (some f, d1, b1) =>
      let r := drainFuel fuel d1 b1
      (f :: r.1, r.2.1, r.2.2)

/-- One unit more than the longest possible chain of frame-producing `decode`
calls on `buf` (proved below: each produced frame strictly decreases
`buf.length + rankD`). -/
def rankD (d : RbkDecoder) : Nat :=
  if d.started ∧ 0 ≤ d.body_size then 1 else 0

/-- Drain the buffer: repeated `decode` until no frame is produced.  The fuel
`buf.length + 2` always suffices (`drainFuel_congr` below). -/
def drain (d : RbkDecoder) (buf : List Nat) :
    List RbkFrame × RbkDecoder × List Nat :=
  drainFuel (buf.length + 2) d buf

/-! ### Basic decoder lemmas -/

lemma scanStart_eq_none {g : List Nat} (h : ∀ b ∈ g, b ≠ 0x5A) :
    scanStart g = none := by
  induction g with
  | nil => rfl
  | cons a t ih =>
    have ha : a ≠ 0x5A := h a (List.mem_cons_self a t)
    simp only [scanStart, if_neg ha]
    exact ih fun b hb => h b (List.mem_cons_of_mem a hb)

lemma scanStart_append_of_none {g m : List Nat} (h : scanStart g = none) :
    scanStart (g ++ m) = scanStart m := by
  induction g with
  | nil => rfl
  | cons a t ih =>
    by_cases ha : a = 0x5A
    · simp [scanStart, ha] at h
    · simp only [scanStart, if_neg ha] at h ⊢
      exact ih h

lemma scanStart_cons_mark (t : List Nat) : scanStart (0x5A :: t) = some t := by
  simp [scanStart]

lemma scanStart_some_length {g r : List Nat} (h : scanStart g = some r) :
    r.length < g.length := by
  induction g with
  | nil => simp [scanStart] at h
  | cons a t ih =>
    by_cases ha : a = 0x5A
    · simp only [scanStart, if_pos ha, Option.some.injEq] at h
      subst h; simp
    · simp only [scanStart, if_neg ha] at h
      exact Nat.lt_trans (ih h) (by simp)

lemma scanStart_append_some {g r m : List Nat} (h : scanStart g = some r) :
    scanStart (g ++ m) = some (r ++ m) := by
  induction g with
  | nil => simp [scanStart] at h
  | cons a t ih =>
    by_cases ha : a = 0x5A
    · simp only [scanStart, if_pos ha, Option.some.injEq] at h
      subst h; simp [scanStart, ha]
    · simp only [scanStart, if_neg ha] at h ⊢
      exact ih h

lemma parseHeader_eq_none {b : List Nat} (h : b.length < 15) :
    parseHeader b = none := by
  simp [parseHeader, h]

lemma parseHeader_length_le {b : List Nat} {f n a : Nat} {r : List Nat}
    (h : parseHeader b = some (f, n, a, r)) : r.length + 15 = b.length := by
  by_cases hl : b.length < 15
  · simp [parseHeader, hl] at h
  · simp only [parseHeader, if_neg hl, Option.some.injEq, Prod.mk.injEq] at h
    have := h.2.2.2
    subst this
    simp [List.length_drop]
    omega

/-! ### Valid frames and their encodings -/

/-- The data of one request frame, as handed to `encode_request`. -/
structure FrameSpec where
  api_no : Nat
  flow_no : Nat
  body : List Nat
deriving DecidableEq, Repr

/-- A frame a caller of `encode_request` can actually produce with a decodable
body: `api_no` and `flow_no` are `u16` values, the body is a byte string, and
(amendment forced by the decoder's signed 32-bit `body_size` field) its byte
length is below `2^31`. -/
def ValidSpec (s : FrameSpec) : Prop :=
  s.api_no < 65536 ∧ s.flow_no < 65536 ∧ s.body.length < 2147483648 ∧
    ∀ b ∈ s.body, b < 256

/-- The encoded bytes of a frame. -/
def encSpec (s : FrameSpec) : List Nat :=
  encode_request s.api_no s.body s.flow_no

/-- The frame the decoder should deliver for `s`. -/
def specFrame (s : FrameSpec) : RbkFrame :=
  ⟨s.flow_no, s.api_no, s.body⟩

/-- The 15 header bytes that follow the start mark in `encSpec s`. -/
def hdrTail (s : FrameSpec) : List Nat :=
  0x01 :: (u16be s.flow_no ++ u32be s.body.length ++ u16be s.api_no ++
    [0, 0, 0, 0, 0, 0])

lemma encSpec_eq (s : FrameSpec) :
    encSpec s = 0x5A :: (hdrTail s ++ s.body) := by
  simp [encSpec, encode_request, hdrTail, List.append_assoc]

lemma hdrTail_length (s : FrameSpec) : (hdrTail s).length = 15 := by
  simp [hdrTail, u16be, u32be]

lemma parseHeader_hdrTail (s : FrameSpec) (rest : List Nat)
    (hf : s.flow_no < 65536) (ha : s.api_no < 65536)
    (hb : s.body.length < 4294967296) :
    parseHeader (hdrTail s ++ rest) =
      some (s.flow_no, s.body.length, s.api_no, rest) := by
  have hlen : (hdrTail s ++ rest).length = 15 + rest.length := by
    simp [hdrTail, u16be, u32be]; omega
  have h1 : byteAt (hdrTail s ++ rest) 1 = s.flow_no / 256 % 256 := rfl
  have h2 : byteAt (hdrTail s ++ rest) 2 = s.flow_no % 256 := rfl
  have h3 : byteAt (hdrTail s ++ rest) 3 = s.body.length / 16777216 % 256 := rfl
  have h4 : byteAt (hdrTail s ++ rest) 4 = s.body.length / 65536 % 256 := rfl
  have h5 : byteAt (hdrTail s ++ rest) 5 = s.body.length / 256 % 256 := rfl
  have h6 : byteAt (hdrTail s ++ rest) 6 = s.body.length % 256 := rfl
  have h7 : byteAt (hdrTail s ++ rest) 7 = s.api_no / 256 % 256 := rfl
  have h8 : byteAt (hdrTail s ++ rest) 8 = s.api_no % 256 := rfl
  have hdrop : (hdrTail s ++ rest).drop 15 = rest := rfl
  simp only [parseHeader, hlen, h1, h2, h3, h4, h5, h6, h7, h8, hdrop]
  rw [if_neg (by omega)]
  refine congrArg some ?_
  refine Prod.ext ?_ (Prod.ext ?_ (Prod.ext ?_ rfl)) <;> simp <;> omega

lemma i32OfU32_small {n : Nat} (h : n < 2147483648) : i32OfU32 n = n := by
  have h2 : n % 4294967296 = n := Nat.mod_eq_of_lt (by omega)
  simp only [i32OfU32, h2, if_pos h]
  omega

lemma usizeOfI32_ofNat {n : Nat} (h : n < 18446744073709551616) :
    usizeOfI32 (n : Int) = n := by
  have : ((n : Int)) % 18446744073709551616 = n := by
    rw [Int.emod_eq_of_lt (by positivity) (by exact_mod_cast h)]
  simp [usizeOfI32, this]

/-! ### Single-call `decode` characterizations -/

lemma decode_new_nil : RbkDecoder.decode RbkDecoder.new [] = (none, RbkDecoder.new, []) := rfl

lemma decode_no_mark {g : List Nat} (h : ∀ b ∈ g, b ≠ 0x5A) :
    RbkDecoder.decode RbkDecoder.new g = (none, RbkDecoder.new, []) := by
  simp [RbkDecoder.decode, RbkDecoder.new, scanStart_eq_none h]

lemma decode_new_dropGarbage {g : List Nat} (rest : List Nat)
    (h : ∀ b ∈ g, b ≠ 0x5A) :
    RbkDecoder.decode RbkDecoder.new (g ++ rest) =
      RbkDecoder.decode RbkDecoder.new rest := by
  simp [RbkDecoder.decode, RbkDecoder.new,
    scanStart_append_of_none (scanStart_eq_none h)]

lemma decode_new_scan {buf b1 : List Nat} (h : scanStart buf = some b1) :
    RbkDecoder.decode RbkDecoder.new buf =
      RbkDecoder.decode ⟨true, 0, 0, -1⟩ b1 := by
  simp [RbkDecoder.decode, RbkDecoder.new, h]

lemma decode_park_header (x y : Nat) (b : List Nat) (hb : b.length < 15) :
    RbkDecoder.decode ⟨true, x, y, -1⟩ b = (none, ⟨true, x, y, -1⟩, b) := by
  simp [RbkDecoder.decode, parseHeader_eq_none hb]

lemma decode_park_body (f a n : Nat) (b : List Nat)
    (hn : n < 18446744073709551616) (hb : b.length < n) :
    RbkDecoder.decode ⟨true, f, a, (n : Int)⟩ b =
      (none, ⟨true, f, a, (n : Int)⟩, b) := by
  have h0 : ¬ ((n : Int) < 0) := by omega
  simp [RbkDecoder.decode, h0, usizeOfI32_ofNat hn, hb]

lemma decode_body_resume (f a : Nat) (body c : List Nat)
    (h : body.length < 2147483648) :
    RbkDecoder.decode ⟨true, f, a, (body.length : Int)⟩ (body ++ c) =
      (some ⟨f, a, body⟩, RbkDecoder.new, c) := by
  have h0 : ¬ ((body.length : Int) < 0) := by omega
  have hu : usizeOfI32 (body.length : Int) = body.length :=
    usizeOfI32_ofNat (by omega)
  have hlen : ¬ ((body ++ c).length < body.length) := by
    simp [List.length_append]
  simp [RbkDecoder.decode, h0, hu, hlen, List.take_left, List.drop_left]

lemma decode_header_resume (x y : Nat) (s : FrameSpec) (c : List Nat)
    (hf : s.flow_no < 65536) (ha : s.api_no < 65536)
    (hlen : s.body.length < 2147483648) :
    RbkDecoder.decode ⟨true, x, y, -1⟩ (hdrTail s ++ (s.body ++ c)) =
      (some (specFrame s), RbkDecoder.new, c) := by
  have hp := parseHeader_hdrTail s (s.body ++ c) hf ha (by omega)
  have h32 : i32OfU32 s.body.length = (s.body.length : Int) := i32OfU32_small hlen
  have hu : usizeOfI32 (s.body.length : Int) = s.body.length :=
    usizeOfI32_ofNat (by omega)
  have hck : ¬ ((s.body ++ c).length < s.body.length) := by
    simp [List.length_append]
  simp [RbkDecoder.decode, hp, h32, hu, hck, specFrame,
    List.take_left, List.drop_left]

lemma decode_header_park (x y : Nat) (s : FrameSpec) (pb : List Nat)
    (hf : s.flow_no < 65536) (ha : s.api_no < 65536)
    (hlen : s.body.length < 2147483648) (hpb : pb.length < s.body.length) :
    RbkDecoder.decode ⟨true, x, y, -1⟩ (hdrTail s ++ pb) =
      (none, ⟨true, s.flow_no, s.api_no, (s.body.length : Int)⟩, pb) := by
  have hp := parseHeader_hdrTail s pb hf ha (by omega)
  have h32 : i32OfU32 s.body.length = (s.body.length : Int) := i32OfU32_small hlen
  have hu : usizeOfI32 (s.body.length : Int) = s.body.length :=
    usizeOfI32_ofNat (by omega)
  simp [RbkDecoder.decode, hp, h32, hu, hpb]

lemma decode_fresh_frame (s : FrameSpec) (c : List Nat)
    (hf : s.flow_no < 65536) (ha : s.api_no < 65536)
    (hlen : s.body.length < 2147483648) :
    RbkDecoder.decode RbkDecoder.new (encSpec s ++ c) =
      (some (specFrame s), RbkDecoder.new, c) := by
  have hscan : scanStart (encSpec s ++ c) = some (hdrTail s ++ (s.body ++ c)) := by
    rw [encSpec_eq, List.cons_append, scanStart_cons_mark, List.append_assoc]
  rw [decode_new_scan hscan]
  exact decode_header_resume 0 0 s c hf ha hlen

/-! ### Drain: fuel sufficiency -/

lemma rankD_le_one (d : RbkDecoder) : rankD d ≤ 1 := by
  unfold rankD; split <;> omega

/-- Whenever `decode` produces a frame it resets the state to `new` and
strictly decreases `buf.length + rankD`: producing a frame consumes the mark
and header (≥ 16 bytes) unless the decoder was already parked waiting for the
body, in which case the rank drops from 1 to 0. -/
lemma decode_emit {d : RbkDecoder} {buf : List Nat} {f : RbkFrame}
    {d1 : RbkDecoder} {b1 : List Nat}
    (h : d.decode buf = (some f, d1, b1)) :
    d1 = RbkDecoder.new ∧ b1.length + rankD d1 < buf.length + rankD d := by
  have hnew : rankD RbkDecoder.new = 0 := by decide
  by_cases hst : d.started
  · by_cases hbs : d.body_size < 0
    · rcases hp : parseHeader buf with _ | ⟨ff, nn, aa, r⟩
      · have he : d.decode buf = (none, ⟨true, d.flow_no, d.api_no, d.body_size⟩, buf) := by
          simp [RbkDecoder.decode, hst, hbs, hp]
        rw [he] at h; simp at h
      · have hr : r.length + 15 = buf.length := parseHeader_length_le hp
        by_cases hck : r.length < usizeOfI32 (i32OfU32 nn)
        · have he : d.decode buf = (none, ⟨true, ff, aa, i32OfU32 nn⟩, r) := by
            simp [RbkDecoder.decode, hst, hbs, hp, hck]
          rw [he] at h; simp at h
        · have he : d.decode buf =
              (some ⟨ff, aa, r.take (usizeOfI32 (i32OfU32 nn))⟩,
                RbkDecoder.new, r.drop (usizeOfI32 (i32OfU32 nn))) := by
            simp [RbkDecoder.decode, hst, hbs, hp, hck]
          rw [he] at h
          simp only [Prod.mk.injEq] at h
          obtain ⟨-, h2, h3⟩ := h
          subst h2; subst h3
          refine ⟨rfl, ?_⟩
          have hdl := List.length_drop (usizeOfI32 (i32OfU32 nn)) r
          have hrk := rankD_le_one d
          omega
    · by_cases hck : buf.length < usizeOfI32 d.body_size
      · have he : d.decode buf = (none, ⟨true, d.flow_no, d.api_no, d.body_size⟩, buf) := by
          simp [RbkDecoder.decode, hst, hbs, hck]
        rw [he] at h; simp at h
      · have he : d.decode buf =
            (some ⟨d.flow_no, d.api_no, buf.take (usizeOfI32 d.body_size)⟩,
              RbkDecoder.new, buf.drop (usizeOfI32 d.body_size)) := by
          simp [RbkDecoder.decode, hst, hbs, hck]
        rw [he] at h
        simp only [Prod.mk.injEq] at h
        obtain ⟨-, h2, h3⟩ := h
        subst h2; subst h3
        refine ⟨rfl, ?_⟩
        have hrd : rankD d = 1 := by
          simp [rankD, hst, Int.not_lt.mp hbs]
        have hdl := List.length_drop (usizeOfI32 d.body_size) buf
        omega
  · rcases hsc : scanStart buf with _ | b2
    · have he : d.decode buf = (none, d, []) := by
        simp [RbkDecoder.decode, hst, hsc]
      rw [he] at h; simp at h
    · have hb2 : b2.length < buf.length := scanStart_some_length hsc
      by_cases hbs : d.body_size < 0
      · rcases hp : parseHeader b2 with _ | ⟨ff, nn, aa, r⟩
        · have he : d.decode buf = (none, ⟨true, d.flow_no, d.api_no, d.body_size⟩, b2) := by
            simp [RbkDecoder.decode, hst, hsc, hbs, hp]
          rw [he] at h; simp at h
        · have hr : r.length + 15 = b2.length := parseHeader_length_le hp
          by_cases hck : r.length < usizeOfI32 (i32OfU32 nn)
          · have he : d.decode buf = (none, ⟨true, ff, aa, i32OfU32 nn⟩, r) := by
              simp [RbkDecoder.decode, hst, hsc, hbs, hp, hck]
            rw [he] at h; simp at h
          · have he : d.decode buf =
                (some ⟨ff, aa, r.take (usizeOfI32 (i32OfU32 nn))⟩,
                  RbkDecoder.new, r.drop (usizeOfI32 (i32OfU32 nn))) := by
              simp [RbkDecoder.decode, hst, hsc, hbs, hp, hck]
            rw [he] at h
            simp only [Prod.mk.injEq] at h
            obtain ⟨-, h2, h3⟩ := h
            subst h2; subst h3
            refine ⟨rfl, ?_⟩
            have hdl := List.length_drop (usizeOfI32 (i32OfU32 nn)) r
            omega
      · by_cases hck : b2.length < usizeOfI32 d.body_size
        · have he : d.decode buf = (none, ⟨true, d.flow_no, d.api_no, d.body_size⟩, b2) := by
            simp [RbkDecoder.decode, hst, hsc, hbs, hck]
          rw [he] at h; simp at h
        · have he : d.decode buf =
              (some ⟨d.flow_no, d.api_no, b2.take (usizeOfI32 d.body_size)⟩,
                RbkDecoder.new, b2.drop (usizeOfI32 d.body_size)) := by
            simp [RbkDecoder.decode, hst, hsc, hbs, hck]
          rw [he] at h
          simp only [Prod.mk.injEq] at h
          obtain ⟨-, h2, h3⟩ := h
          subst h2; subst h3
          refine ⟨rfl, ?_⟩
          have hdl := List.length_drop (usizeOfI32 d.body_size) b2
          omega

lemma drainFuel_succ (fuel : Nat) (d : RbkDecoder) (buf : List Nat) :
    drainFuel (fuel + 1) d buf =
      match d.decode buf with
      | (none, d1, b1) => ([], d1, b1)
      | (some f, d1, b1) =>
        let r := drainFuel fuel d1 b1
        (f :: r.1, r.2.1, r.2.2) := rfl

/-- Above the measure `buf.length + rankD d`, the drain result does not depend
on the fuel. -/
lemma drainFuel_congr (μ : Nat) : ∀ (f1 f2 : Nat) (d : RbkDecoder) (buf : List Nat),
    buf.length + rankD d ≤ μ → μ < f1 → μ < f2 →
    drainFuel f1 d buf = drainFuel f2 d buf := by
  induction μ with
  | zero =>
    intro f1 f2 d buf hμ h1 h2
    obtain ⟨g1, rfl⟩ : ∃ g, f1 = g + 1 := ⟨f1 - 1, by omega⟩
    obtain ⟨g2, rfl⟩ : ∃ g, f2 = g + 1 := ⟨f2 - 1, by omega⟩
    rcases hdec : d.decode buf with ⟨o, d1, b1⟩
    cases o with
    | none => rw [drainFuel_succ, drainFuel_succ, hdec]
    | some f => exact absurd (decode_emit hdec).2 (by omega)
  | succ μ ih =>
    intro f1 f2 d buf hμ h1 h2
    obtain ⟨g1, rfl⟩ : ∃ g, f1 = g + 1 := ⟨f1 - 1, by omega⟩
    obtain ⟨g2, rfl⟩ : ∃ g, f2 = g + 1 := ⟨f2 - 1, by omega⟩
    rcases hdec : d.decode buf with ⟨o, d1, b1⟩
    cases o with
    | none => rw [drainFuel_succ, drainFuel_succ, hdec]
    | some f =>
      have hb := (decode_emit hdec).2
      have heq : drainFuel g1 d1 b1 = drainFuel g2 d1 b1 :=
        ih g1 g2 d1 b1 (by omega) (by omega) (by omega)
      rw [drainFuel_succ, drainFuel_succ, hdec]
      simp [heq]

lemma drain_decode_none {d d1 : RbkDecoder} {buf b1 : List Nat}
    (h : d.decode buf = (none, d1, b1)) : drain d buf = ([], d1, b1) := by
  show drainFuel (buf.length + 1 + 1) d buf = ([], d1, b1)
  rw [drainFuel_succ, h]

lemma drain_decode_some {d d1 : RbkDecoder} {buf b1 : List Nat} {f : RbkFrame}
    (h : d.decode buf = (some f, d1, b1)) :
    drain d buf =
      (f :: (drain d1 b1).1, (drain d1 b1).2.1, (drain d1 b1).2.2) := by
  have hb := (decode_emit h).2
  have hr := rankD_le_one d
  have hr1 := rankD_le_one d1
  show drainFuel (buf.length + 1 + 1) d buf = _
  rw [drainFuel_succ, h]
  have heq : drainFuel (buf.length + 1) d1 b1 = drain d1 b1 := by
    unfold drain
    exact drainFuel_congr (b1.length + rankD d1) _ _ d1 b1 le_rfl (by omega) (by omega)
  simp [heq]

lemma drain_new_nil : drain RbkDecoder.new [] = ([], RbkDecoder.new, []) :=
  drain_decode_none decode_new_nil

/-! ### Streamed decoding of valid frame sequences -/

/-- The wire bytes of a sequence of frames. -/
def streamBytes (specs : List FrameSpec) : List Nat :=
  (specs.map encSpec).flatten

lemma streamBytes_nil : streamBytes [] = [] := rfl

lemma streamBytes_cons (s : FrameSpec) (rem : List FrameSpec) :
    streamBytes (s :: rem) = encSpec s ++ streamBytes rem := by
  simp [streamBytes]

lemma append_split_le {α : Type} {a b x y : List α} (h : a ++ b = x ++ y)
    (hl : a.length ≤ x.length) : ∃ m, x = a ++ m ∧ b = m ++ y := by
  refine ⟨x.drop a.length, ?_, ?_⟩
  · have ha : a = x.take a.length := by
      have := congrArg (List.take a.length) h
      rwa [List.take_left, List.take_append_of_le_length hl] at this
    conv_lhs => rw [← List.take_append_drop a.length x]
    rw [← ha]
  · have := congrArg (List.drop a.length) h
    rwa [List.drop_left, List.drop_append_of_le_length hl] at this

/-- The reachable "between frames / inside a frame" configurations of the
decoder while consuming the byte stream of a list of frames.
`Cfg d l rem R` says: the decoder state is `d`, the bytes still buffered are
`l`, the frames not yet delivered are `rem`, and `R` is exactly the wire bytes
still to arrive. -/
inductive Cfg : RbkDecoder → List Nat → List FrameSpec → List Nat → Prop where
  | boundary (rem : List FrameSpec) :
      Cfg RbkDecoder.new [] rem (streamBytes rem)
  | midHdr (s : FrameSpec) (rem : List FrameSpec) (pre suf : List Nat)
      (hps : pre ++ suf = hdrTail s) (hpre : pre.length < 15) :
      Cfg ⟨true, 0, 0, -1⟩ pre (s :: rem) (suf ++ (s.body ++ streamBytes rem))
  | midBody (s : FrameSpec) (rem : List FrameSpec) (bp need : List Nat)
      (hbn : bp ++ need = s.body) (hne : need ≠ []) :
      Cfg ⟨true, s.flow_no, s.api_no, (s.body.length : Int)⟩ bp (s :: rem)
        (need ++ streamBytes rem)

/-- Workhorse: starting from any reachable configuration, draining after one
more chunk `c` of the remaining stream delivers exactly the frames completed
by `c`'s bytes and reaches the configuration for the new stream position. -/
lemma runDrain (n : Nat) : ∀ (c : List Nat), c.length ≤ n →
    ∀ {d : RbkDecoder} {l : List Nat} {rem : List FrameSpec} {R R2 : List Nat},
    Cfg d l rem R → (∀ s ∈ rem, ValidSpec s) → c ++ R2 = R →
    ∃ done rem2, rem = done ++ rem2 ∧
      ∃ d2 l2, drain d (l ++ c) = (done.map specFrame, d2, l2) ∧
        Cfg d2 l2 rem2 R2 := by
  induction n using Nat.strong_induction_on with
  | _ n ih =>
  intro c hc d l rem R R2 hcfg hv hR
  cases hcfg with
  | boundary rem =>
    cases rem with
    | nil =>
      rw [streamBytes_nil] at hR
      obtain ⟨hc0, hR2⟩ := List.append_eq_nil.mp hR
      subst hc0; subst hR2
      exact ⟨[], [], rfl, RbkDecoder.new, [],
        by simpa using drain_new_nil, Cfg.boundary []⟩
    | cons s rem3 =>
      obtain ⟨ha16, hf16, hb31, -⟩ := hv s (List.mem_cons_self s rem3)
      have hv3 : ∀ t ∈ rem3, ValidSpec t := fun t ht => hv t (List.mem_cons_of_mem s ht)
      rw [streamBytes_cons, encSpec_eq s, List.cons_append, List.append_assoc] at hR
      cases c with
      | nil =>
        refine ⟨[], s :: rem3, rfl, RbkDecoder.new, [],
          by simpa using drain_new_nil, ?_⟩
        have hR2 : R2 = streamBytes (s :: rem3) := by
          rw [streamBytes_cons, encSpec_eq s, List.cons_append, List.append_assoc]
          simpa using hR
        rw [hR2]
        exact Cfg.boundary (s :: rem3)
      | cons b c1 =>
        rw [List.cons_append] at hR
        injection hR with hb hR1
        subst hb
        by_cases hlen : c1.length < 15
        · obtain ⟨suf, hsuf, hR2⟩ :=
            append_split_le hR1 (by rw [hdrTail_length]; omega)
          have hdec : RbkDecoder.decode RbkDecoder.new (0x5A :: c1) =
              (none, ⟨true, 0, 0, -1⟩, c1) := by
            rw [decode_new_scan (scanStart_cons_mark c1)]
            exact decode_park_header 0 0 c1 hlen
          refine ⟨[], s :: rem3, rfl, _, _, by simpa using drain_decode_none hdec, ?_⟩
          rw [hR2]
          exact Cfg.midHdr s rem3 c1 suf hsuf.symm hlen
        · push_neg at hlen
          obtain ⟨c2, hc1, hY⟩ :=
            append_split_le hR1.symm (by rw [hdrTail_length] at *; omega)
          by_cases hb2 : c2.length < s.body.length
          · obtain ⟨need, hneed, hR2⟩ := append_split_le hY.symm (by omega)
            have hdec : RbkDecoder.decode RbkDecoder.new (0x5A :: c1) =
                (none, ⟨true, s.flow_no, s.api_no, (s.body.length : Int)⟩, c2) := by
              rw [hc1, decode_new_scan (scanStart_cons_mark _)]
              exact decode_header_park 0 0 s c2 hf16 ha16 hb31 hb2
            refine ⟨[], s :: rem3, rfl, _, _, by simpa using drain_decode_none hdec, ?_⟩
            rw [hR2]
            refine Cfg.midBody s rem3 c2 need hneed.symm ?_
            intro hneednil
            rw [hneednil, List.append_nil] at hneed
            have := congrArg List.length hneed
            omega
          · push_neg at hb2
            obtain ⟨c3, hc3, hR4⟩ := append_split_le hY hb2
            have hbufeq : (0x5A : Nat) :: c1 = encSpec s ++ c3 := by
              rw [encSpec_eq, List.cons_append, List.append_assoc, hc1, hc3]
            have hdec : RbkDecoder.decode RbkDecoder.new (0x5A :: c1) =
                (some (specFrame s), RbkDecoder.new, c3) := by
              rw [hbufeq]
              exact decode_fresh_frame s c3 hf16 ha16 hb31
            have hlt : c3.length < n := by
              have h1 : c1.length = 15 + c2.length := by
                have := congrArg List.length hc1
                simp [hdrTail_length] at this
                omega
              have h2 : c2.length = s.body.length + c3.length := by
                have := congrArg List.length hc3
                simp at this
                omega
              simp at hc
              omega
            obtain ⟨done, rem2, hrem, d2, l2, hdrain, hcfg2⟩ :=
              ih c3.length hlt c3 le_rfl (Cfg.boundary rem3) hv3 hR4.symm
            refine ⟨s :: done, rem2, by rw [hrem, List.cons_append], d2, l2, ?_, hcfg2⟩
            rw [List.nil_append, drain_decode_some hdec]
            rw [List.nil_append] at hdrain
            simp [hdrain]
  | midHdr s rem3 pre suf hps hpre =>
    obtain ⟨ha16, hf16, hb31, -⟩ := hv s (List.mem_cons_self s rem3)
    have hv3 : ∀ t ∈ rem3, ValidSpec t := fun t ht => hv t (List.mem_cons_of_mem s ht)
    have hsuflen : l.length + suf.length = 15 := by
      have := congrArg List.length hps
      simp [hdrTail_length] at this
      omega
    by_cases hlen : c.length < suf.length
    · obtain ⟨suf2, hsuf2, hR2⟩ := append_split_le hR (by omega)
      have hdec : RbkDecoder.decode ⟨true, 0, 0, -1⟩ (l ++ c) =
          (none, ⟨true, 0, 0, -1⟩, l ++ c) := by
        refine decode_park_header 0 0 (l ++ c) ?_
        simp
        omega
      refine ⟨[], s :: rem3, rfl, _, _, by simpa using drain_decode_none hdec, ?_⟩
      rw [hR2]
      refine Cfg.midHdr s rem3 (l ++ c) suf2 ?_ (by simp; omega)
      rw [List.append_assoc, ← hsuf2, hps]
    · push_neg at hlen
      obtain ⟨c2, hc2, hY⟩ := append_split_le hR.symm hlen
      have hbuf : l ++ c = hdrTail s ++ c2 := by
        rw [hc2, ← List.append_assoc, hps]
      by_cases hb2 : c2.length < s.body.length
      · obtain ⟨need, hneed, hR2⟩ := append_split_le hY.symm (by omega)
        have hdec : RbkDecoder.decode ⟨true, 0, 0, -1⟩ (l ++ c) =
            (none, ⟨true, s.flow_no, s.api_no, (s.body.length : Int)⟩, c2) := by
          rw [hbuf]
          exact decode_header_park 0 0 s c2 hf16 ha16 hb31 hb2
        refine ⟨[], s :: rem3, rfl, _, _, drain_decode_none hdec, ?_⟩
        rw [hR2]
        refine Cfg.midBody s rem3 c2 need hneed.symm ?_
        intro hneednil
        rw [hneednil, List.append_nil] at hneed
        have := congrArg List.length hneed
        omega
      · push_neg at hb2
        obtain ⟨c3, hc3, hR4⟩ := append_split_le hY hb2
        have hdec : RbkDecoder.decode ⟨true, 0, 0, -1⟩ (l ++ c) =
            (some (specFrame s), RbkDecoder.new, c3) := by
          rw [hbuf, hc3, ← List.append_assoc]
          rw [List.append_assoc]
          exact decode_header_resume 0 0 s c3 hf16 ha16 hb31
        have hlt : c3.length < n := by
          have h2 : c2.length = s.body.length + c3.length := by
            have := congrArg List.length hc3
            simp at this
            omega
          have h3 : c.length = suf.length + c2.length := by
            have := congrArg List.length hc2
            simp at this
            omega
          omega
        obtain ⟨done, rem2, hrem, d2, l2, hdrain, hcfg2⟩ :=
          ih c3.length hlt c3 le_rfl (Cfg.boundary rem3) hv3 hR4.symm
        refine ⟨s :: done, rem2, by rw [hrem, List.cons_append], d2, l2, ?_, hcfg2⟩
        rw [drain_decode_some hdec]
        rw [List.nil_append] at hdrain
        simp [hdrain]
  | midBody s rem3 bp need hbn hne =>
    obtain ⟨ha16, hf16, hb31, -⟩ := hv s (List.mem_cons_self s rem3)
    have hv3 : ∀ t ∈ rem3, ValidSpec t := fun t ht => hv t (List.mem_cons_of_mem s ht)
    have hbplen : l.length + need.length = s.body.length := by
      have := congrArg List.length hbn
      simp at this
      omega
    have hneedpos : 0 < need.length := List.length_pos.mpr hne
    by_cases hlen : c.length < need.length
    · obtain ⟨need2, hneed2, hR2⟩ := append_split_le hR (by omega)
      have hdec : RbkDecoder.decode ⟨true, s.flow_no, s.api_no, (s.body.length : Int)⟩
          (l ++ c) =
          (none, ⟨true, s.flow_no, s.api_no, (s.body.length : Int)⟩, l ++ c) := by
        refine decode_park_body s.flow_no s.api_no s.body.length (l ++ c) (by omega) ?_
        simp
        omega
      refine ⟨[], s :: rem3, rfl, _, _, drain_decode_none hdec, ?_⟩
      rw [hR2]
      refine Cfg.midBody s rem3 (l ++ c) need2 ?_ ?_
      · rw [List.append_assoc, ← hneed2, hbn]
      · intro hnil
        have := congrArg List.length hneed2
        rw [hnil] at this
        simp at this
        omega
    · push_neg at hlen
      obtain ⟨c2, hc2, hY⟩ := append_split_le hR.symm hlen
      have hbuf : l ++ c = s.body ++ c2 := by
        rw [hc2, ← List.append_assoc, hbn]
      have hdec : RbkDecoder.decode ⟨true, s.flow_no, s.api_no, (s.body.length : Int)⟩
          (l ++ c) = (some (specFrame s), RbkDecoder.new, c2) := by
        rw [hbuf]
        exact decode_body_resume s.flow_no s.api_no s.body c2 hb31
      have hlt : c2.length < n := by
        have h3 : c.length = need.length + c2.length := by
          have := congrArg List.length hc2
          simp at this
          omega
        omega
      obtain ⟨done, rem2, hrem, d2, l2, hdrain, hcfg2⟩ :=
        ih c2.length hlt c2 le_rfl (Cfg.boundary rem3) hv3 hY.symm
      refine ⟨s :: done, rem2, by rw [hrem, List.cons_append], d2, l2, ?_, hcfg2⟩
      rw [drain_decode_some hdec]
      rw [List.nil_append] at hdrain
      simp [hdrain]

lemma streamBytes_eq_nil {rem : List FrameSpec} (h : streamBytes rem = []) :
    rem = [] := by
  cases rem with
  | nil => rfl
  | cons s r =>
    rw [streamBytes_cons, encSpec_eq] at h
    simp at h

/-- Feed one chunk to the decoder: append it to the buffered leftover, then
drain, accumulating the decoded frames (the spec's "feeding the chunks to the
decoder one at a time and draining it after each chunk"). -/
def feedOne (acc : List RbkFrame × RbkDecoder × List Nat) (c : List Nat) :
    List RbkFrame × RbkDecoder × List Nat :=
  let r := drain acc.2.1 (acc.2.2 ++ c)
  (acc.1 ++ r.1, r.2.1, r.2.2)

/-- Feed a list of chunks to a fresh decoder, draining after each chunk. -/
def feedAll (chunks : List (List Nat)) : List RbkFrame × RbkDecoder × List Nat :=
  chunks.foldl feedOne ([], RbkDecoder.new, [])

lemma feedAll_go : ∀ (chunks : List (List Nat)) (out : List RbkFrame)
    (d : RbkDecoder) (l : List Nat) (rem : List FrameSpec) (R : List Nat),
    Cfg d l rem R → (∀ s ∈ rem, ValidSpec s) → chunks.flatten = R →
    chunks.foldl feedOne (out, d, l) =
      (out ++ rem.map specFrame, RbkDecoder.new, []) := by
  intro chunks
  induction chunks with
  | nil =>
    intro out d l rem R hcfg hv hfl
    cases hcfg with
    | boundary rem =>
      simp only [List.flatten_nil] at hfl
      rw [streamBytes_eq_nil hfl.symm]
      simp
    | midHdr s rem3 pre suf hps hpre =>
      simp only [List.flatten_nil] at hfl
      obtain ⟨h1, -⟩ := List.append_eq_nil.mp hfl.symm
      have := congrArg List.length hps
      rw [h1] at this
      simp [hdrTail_length] at this
      omega
    | midBody s rem3 bp need hbn hne =>
      simp only [List.flatten_nil] at hfl
      obtain ⟨h1, -⟩ := List.append_eq_nil.mp hfl.symm
      exact absurd h1 hne
  | cons ch chunks ih =>
    intro out d l rem R hcfg hv hfl
    have harg : ch ++ chunks.flatten = R := by rw [← hfl]; simp
    obtain ⟨done, rem2, hrem, d2, l2, hdrain, hcfg2⟩ :=
      runDrain ch.length ch le_rfl hcfg hv harg
    have hv2 : ∀ s ∈ rem2, ValidSpec s := by
      intro t ht
      exact hv t (by rw [hrem]; exact List.mem_append_right done ht)
    have hfeed : feedOne (out, d, l) ch = (out ++ done.map specFrame, d2, l2) := by
      simp [feedOne, hdrain]
    rw [List.foldl_cons, hfeed, ih (out ++ done.map specFrame) d2 l2 rem2 _ hcfg2 hv2 rfl]
    rw [hrem]
    simp

/-! ### Headers advertising a large body length -/

/-- The 15 post-mark header bytes for an arbitrary advertised body length
(`hdrTail s` is the special case `len = s.body.length`). -/
def hdrBytes (flow len api : Nat) : List Nat :=
  0x01 :: (u16be flow ++ u32be len ++ u16be api ++ [0, 0, 0, 0, 0, 0])

lemma hdrTail_eq_hdrBytes (s : FrameSpec) :
    hdrTail s = hdrBytes s.flow_no s.body.length s.api_no := rfl

lemma parseHeader_hdrBytes (flow len api : Nat) (rest : List Nat)
    (hf : flow < 65536) (ha : api < 65536) (hl : len < 4294967296) :
    parseHeader (hdrBytes flow len api ++ rest) = some (flow, len, api, rest) := by
  have hlen : (hdrBytes flow len api ++ rest).length = 15 + rest.length := by
    simp [hdrBytes, u16be, u32be]; omega
  have h1 : byteAt (hdrBytes flow len api ++ rest) 1 = flow / 256 % 256 := rfl
  have h2 : byteAt (hdrBytes flow len api ++ rest) 2 = flow % 256 := rfl
  have h3 : byteAt (hdrBytes flow len api ++ rest) 3 = len / 16777216 % 256 := rfl
  have h4 : byteAt (hdrBytes flow len api ++ rest) 4 = len / 65536 % 256 := rfl
  have h5 : byteAt (hdrBytes flow len api ++ rest) 5 = len / 256 % 256 := rfl
  have h6 : byteAt (hdrBytes flow len api ++ rest) 6 = len % 256 := rfl
  have h7 : byteAt (hdrBytes flow len api ++ rest) 7 = api / 256 % 256 := rfl
  have h8 : byteAt (hdrBytes flow len api ++ rest) 8 = api % 256 := rfl
  have hdrop : (hdrBytes flow len api ++ rest).drop 15 = rest := rfl
  simp only [parseHeader, hlen, h1, h2, h3, h4, h5, h6, h7, h8, hdrop]
  rw [if_neg (by omega)]
  refine congrArg some ?_
  refine Prod.ext ?_ (Prod.ext ?_ (Prod.ext ?_ rfl)) <;> simp <;> omega

lemma i32OfU32_neg_of_large {n : Nat} (hlo : 2147483648 ≤ n)
    (hhi : n < 4294967296) : i32OfU32 n = (n : Int) - 4294967296 := by
  have h2 : n % 4294967296 = n := Nat.mod_eq_of_lt hhi
  simp only [i32OfU32, h2]
  rw [if_neg (by omega)]
  omega

lemma i32OfU32_range (n : Nat) :
    -2147483648 ≤ i32OfU32 n ∧ i32OfU32 n < 2147483648 := by
  unfold i32OfU32
  split <;> constructor <;> omega

lemma usizeOfI32_neg {i : Int} (hlo : -2147483648 ≤ i) (hhi : i < 0) :
    usizeOfI32 i = (i + 18446744073709551616).toNat := by
  unfold usizeOfI32
  congr 1
  omega

/-- A header advertising `body_len ≥ 2^31` makes `decode` store a negative
`body_size`, compare the buffer against a huge sign-extended `usize`, and
return no frame, leaving the header "unparsed" (`body_size < 0`). -/
lemma decode_huge_header (x y flow len api : Nat) (rest : List Nat)
    (hf : flow < 65536) (ha : api < 65536)
    (hlo : 2147483648 ≤ len) (hhi : len < 4294967296)
    (hrest : rest.length < 9223372036854775808) :
    RbkDecoder.decode ⟨true, x, y, -1⟩ (hdrBytes flow len api ++ rest) =
      (none, ⟨true, flow, api, i32OfU32 len⟩, rest) := by
  have hp := parseHeader_hdrBytes flow len api rest hf ha hhi
  have hneg : i32OfU32 len = (len : Int) - 4294967296 := i32OfU32_neg_of_large hlo hhi
  have hck : rest.length < usizeOfI32 (i32OfU32 len) := by
    rw [hneg, usizeOfI32_neg (by omega) (by omega)]
    omega
  simp [RbkDecoder.decode, hp, hck]

lemma take_usize_small {b2 : List Nat} {bs : Int}
    (hlo : -2147483648 ≤ bs) (hhi : bs < 2147483648)
    (hb2 : b2.length < 9223372036854775808)
    (hck : ¬ b2.length < usizeOfI32 bs) :
    (b2.take (usizeOfI32 bs)).length < 2147483648 := by
  by_cases hneg : bs < 0
  · exfalso
    have hu := usizeOfI32_neg hlo hneg
    omega
  · have hu : usizeOfI32 bs = bs.toNat := by
      unfold usizeOfI32; congr 1; omega
    simp only [List.length_take, hu]
    omega

/-- No call to `decode` on a realizable buffer (shorter than `isize::MAX`
bytes, with an in-range `i32` in `body_size`) ever returns a frame whose body
is `2^31` bytes or longer: a nonnegative `body_size` is below `2^31`, and a
negative one sign-extends to a `usize` no real buffer can reach. -/
lemma decode_frame_body_small {d : RbkDecoder} {buf : List Nat} {f : RbkFrame}
    {d2 : RbkDecoder} {b2 : List Nat}
    (hbuf : buf.length < 9223372036854775808)
    (hlo : -2147483648 ≤ d.body_size) (hhi : d.body_size < 2147483648)
    (h : d.decode buf = (some f, d2, b2)) :
    f.body_str.length < 2147483648 := by
  by_cases hst : d.started
  · by_cases hbs : d.body_size < 0
    · rcases hp : parseHeader buf with _ | ⟨ff, nn, aa, r⟩
      · have he : d.decode buf = (none, ⟨true, d.flow_no, d.api_no, d.body_size⟩, buf) := by
          simp [RbkDecoder.decode, hst, hbs, hp]
        rw [he] at h; simp at h
      · have hr : r.length + 15 = buf.length := parseHeader_length_le hp
        by_cases hck : r.length < usizeOfI32 (i32OfU32 nn)
        · have he : d.decode buf = (none, ⟨true, ff, aa, i32OfU32 nn⟩, r) := by
            simp [RbkDecoder.decode, hst, hbs, hp, hck]
          rw [he] at h; simp at h
        · have he : d.decode buf =
              (some ⟨ff, aa, r.take (usizeOfI32 (i32OfU32 nn))⟩,
                RbkDecoder.new, r.drop (usizeOfI32 (i32OfU32 nn))) := by
            simp [RbkDecoder.decode, hst, hbs, hp, hck]
          rw [he] at h
          simp only [Prod.mk.injEq, Option.some.injEq] at h
          obtain ⟨h1, -, -⟩ := h
          rw [← h1]
          exact take_usize_small (i32OfU32_range nn).1 (i32OfU32_range nn).2
            (by omega) hck
    · by_cases hck : buf.length < usizeOfI32 d.body_size
      · have he : d.decode buf = (none, ⟨true, d.flow_no, d.api_no, d.body_size⟩, buf) := by
          simp [RbkDecoder.decode, hst, hbs, hck]
        rw [he] at h; simp at h
      · have he : d.decode buf =
            (some ⟨d.flow_no, d.api_no, buf.take (usizeOfI32 d.body_size)⟩,
              RbkDecoder.new, buf.drop (usizeOfI32 d.body_size)) := by
          simp [RbkDecoder.decode, hst, hbs, hck]
        rw [he] at h
        simp only [Prod.mk.injEq, Option.some.injEq] at h
        obtain ⟨h1, -, -⟩ := h
        rw [← h1]
        exact take_usize_small hlo hhi hbuf hck
  · rcases hsc : scanStart buf with _ | bs2
    · have he : d.decode buf = (none, d, []) := by
        simp [RbkDecoder.decode, hst, hsc]
      rw [he] at h; simp at h
    · have hb2l : bs2.length < buf.length := scanStart_some_length hsc
      by_cases hbs : d.body_size < 0
      · rcases hp : parseHeader bs2 with _ | ⟨ff, nn, aa, r⟩
        · have he : d.decode buf = (none, ⟨true, d.flow_no, d.api_no, d.body_size⟩, bs2) := by
            simp [RbkDecoder.decode, hst, hsc, hbs, hp]
          rw [he] at h; simp at h
        · have hr : r.length + 15 = bs2.length := parseHeader_length_le hp
          by_cases hck : r.length < usizeOfI32 (i32OfU32 nn)
          · have he : d.decode buf = (none, ⟨true, ff, aa, i32OfU32 nn⟩, r) := by
              simp [RbkDecoder.decode, hst, hsc, hbs, hp, hck]
            rw [he] at h; simp at h
          · have he : d.decode buf =
                (some ⟨ff, aa, r.take (usizeOfI32 (i32OfU32 nn))⟩,
                  RbkDecoder.new, r.drop (usizeOfI32 (i32OfU32 nn))) := by
              simp [RbkDecoder.decode, hst, hsc, hbs, hp, hck]
            rw [he] at h
            simp only [Prod.mk.injEq, Option.some.injEq] at h
            obtain ⟨h1, -, -⟩ := h
            rw [← h1]
            exact take_usize_small (i32OfU32_range nn).1 (i32OfU32_range nn).2
              (by omega) hck
      · by_cases hck : bs2.length < usizeOfI32 d.body_size
        · have he : d.decode buf = (none, ⟨true, d.flow_no, d.api_no, d.body_size⟩, bs2) := by
            simp [RbkDecoder.decode, hst, hsc, hbs, hck]
          rw [he] at h; simp at h
        · have he : d.decode buf =
              (some ⟨d.flow_no, d.api_no, bs2.take (usizeOfI32 d.body_size)⟩,
                RbkDecoder.new, bs2.drop (usizeOfI32 d.body_size)) := by
            simp [RbkDecoder.decode, hst, hsc, hbs, hck]
          rw [he] at h
          simp only [Prod.mk.injEq, Option.some.injEq] at h
          obtain ⟨h1, -, -⟩ := h
          rw [← h1]
          exact take_usize_small hlo hhi (by omega) hck

/-- Garbage containing no start-mark byte, followed by one validly encoded
frame, drains to exactly that frame. -/
lemma drain_garbage_one_frame (g : List Nat) (api flow : Nat) (body : List Nat)
    (hg : ∀ b ∈ g, b ≠ 0x5A) (ha : api < 65536) (hf : flow < 65536)
    (hb : body.length < 2147483648) :
    drain RbkDecoder.new (g ++ encode_request api body flow) =
      ([⟨flow, api, body⟩], RbkDecoder.new, []) := by
  have hdec : RbkDecoder.decode RbkDecoder.new (g ++ encode_request api body flow) =
      (some ⟨flow, api, body⟩, RbkDecoder.new, []) := by
    rw [decode_new_dropGarbage _ hg]
    have hfr := decode_fresh_frame ⟨api, flow, body⟩ [] hf ha hb
    rw [List.append_nil] at hfr
    exact hfr
  rw [drain_decode_some hdec, drain_new_nil]

lemma encode_eq_hdrBytes (api flow : Nat) (body : List Nat) :
    encode_request api body flow = 0x5A :: (hdrBytes flow body.length api ++ body) := by
  simp [encode_request, hdrBytes, List.append_assoc]

lemma decode_encode_huge (api flow : Nat) (body : List Nat)
    (ha : api < 65536) (hf : flow < 65536)
    (hlo : 2147483648 ≤ body.length) (hhi : body.length < 4294967296)
    (hlen : body.length < 9223372036854775808) :
    RbkDecoder.decode RbkDecoder.new (encode_request api body flow) =
      (none, ⟨true, flow, api, i32OfU32 body.length⟩, body) := by
  rw [encode_eq_hdrBytes, decode_new_scan (scanStart_cons_mark _)]
  exact decode_huge_header 0 0 flow body.length api body hf ha hlo hhi hlen

/-! ## Claim theorems: frame codec -/

/-- C3 (counterexample): the claim quantifies over garbage that may contain
stray `0x5A` bytes.  With garbage `[0x5A]` before a valid frame, the decoder
latches onto the stray mark, misreads the real frame's bytes as a header, and
does not deliver the encoded frame. -/
theorem c3_counterexample :
    (drain RbkDecoder.new ([0x5A] ++ encode_request 1007 [120] 42)).1 ≠
      [(⟨42, 1007, [120]⟩ : RbkFrame)] := by decide

/-- C3 (amended): prepending arbitrary garbage bytes that contain no
occurrence of the start-mark byte `0x5A` before one valid encoded frame (body
shorter than `2^31` bytes) still yields exactly that one frame, with nothing
left in the buffer. -/
theorem c3_resync_skips_garbage (g : List Nat) (api flow : Nat) (body : List Nat)
    (hg : ∀ b ∈ g, b ≠ 0x5A) (ha : api < 65536) (hf : flow < 65536)
    (hb : body.length < 2147483648) :
    drain RbkDecoder.new (g ++ encode_request api body flow) =
      ([⟨flow, api, body⟩], RbkDecoder.new, []) :=
  drain_garbage_one_frame g api flow body hg ha hf hb

/-- Witness for `c3_resync_skips_garbage` at garbage `[0, 1, 255]` and a
concrete frame. -/
theorem c3_witness :
    drain RbkDecoder.new ([0, 1, 255] ++ encode_request 1007 [120] 42) =
      ([⟨42, 1007, [120]⟩], RbkDecoder.new, []) :=
  c3_resync_skips_garbage [0, 1, 255] 1007 42 [120]
    (by decide) (by decide) (by decide) (by decide)

/-- C4 (counterexample): on a buffer with no start mark, `decode` does not
"consume nothing" — it consumes (drops) every byte: on `[0]` the remaining
buffer is `[]`, not `[0]`. -/
theorem c4_counterexample :
    (RbkDecoder.new.decode [0]).2.2 ≠ [0] := by decide

/-- C4 (amended): on a buffer containing no start-mark byte, `decode` consumes
the entire buffer (dropping all bytes, so no unbounded history is retained),
reports no frame, and leaves the decoder state unchanged. -/
theorem c4_no_mark_drops_all (buf : List Nat) (h : ∀ b ∈ buf, b ≠ 0x5A) :
    RbkDecoder.new.decode buf = (none, RbkDecoder.new, []) :=
  decode_no_mark h

/-- Witness for `c4_no_mark_drops_all` at `[0, 1, 2]`. -/
theorem c4_witness :
    RbkDecoder.new.decode [0, 1, 2] = (none, RbkDecoder.new, []) :=
  c4_no_mark_drops_all [0, 1, 2] (by decide)

/-- C5 (counterexample): the claim quantifies over every body string, but for
a body of exactly `2^31` bytes the advertised length is stored as the negative
`i32` `-2^31`, the body check compares against a huge sign-extended `usize`,
and decoding `encode(api, body, flow)` yields no frame at all. -/
theorem c5_counterexample :
    (drain RbkDecoder.new
        (encode_request 1007 (List.replicate 2147483648 120) 42)).1 ≠
      [(⟨42, 1007, List.replicate 2147483648 120⟩ : RbkFrame)] := by
  have hrep : (List.replicate 2147483648 (120 : Nat)).length = 2147483648 :=
    List.length_replicate 2147483648 120
  have hdec := decode_encode_huge 1007 42 (List.replicate 2147483648 120)
    (by norm_num) (by norm_num) (by rw [hrep]) (by rw [hrep]; norm_num)
    (by rw [hrep]; norm_num)
  rw [drain_decode_none hdec]
  exact fun h => List.noConfusion h

/-- C5 (amended): for every `api_no < 2^16`, `flow_no < 2^16` and body of byte
length `< 2^31` (including the empty body and multi-byte UTF-8 bodies, which
are just byte sequences here), decoding the bytes of
`encode_request api_no body flow_no` yields exactly one frame carrying that
`flow_no`, `api_no` and body, and consumes the whole buffer. -/
theorem c5_encode_decode_roundtrip (api flow : Nat) (body : List Nat)
    (ha : api < 65536) (hf : flow < 65536) (hb : body.length < 2147483648) :
    drain RbkDecoder.new (encode_request api body flow) =
      ([⟨flow, api, body⟩], RbkDecoder.new, []) := by
  have := drain_garbage_one_frame [] api flow body (by simp) ha hf hb
  simpa using this

/-- Witness for `c5_encode_decode_roundtrip` at a multi-byte UTF-8 body
(and, separately instantiable, the empty body). -/
theorem c5_witness :
    drain RbkDecoder.new (encode_request 1007 [228, 189, 160] 42) =
      ([⟨42, 1007, [228, 189, 160]⟩], RbkDecoder.new, []) ∧
    drain RbkDecoder.new (encode_request 1007 [] 42) =
      ([⟨42, 1007, []⟩], RbkDecoder.new, []) :=
  ⟨c5_encode_decode_roundtrip 1007 42 [228, 189, 160]
      (by decide) (by decide) (by decide),
    c5_encode_decode_roundtrip 1007 42 [] (by decide) (by decide) (by decide)⟩

instance (s : FrameSpec) : Decidable (ValidSpec s) := by
  unfold ValidSpec; infer_instance

/-- C6 (counterexample): the claim quantifies over every sequence of validly
encoded frames; a single frame with a `2^31`-byte body is validly encoded
(the encoder derives its 32-bit length), yet feeding its bytes in one chunk
yields no frame at all instead of that frame. -/
theorem c6_counterexample :
    (feedAll [encode_request 1007 (List.replicate 2147483648 120) 42]).1 ≠
      [(⟨42, 1007, List.replicate 2147483648 120⟩ : RbkFrame)] := by
  have hrep : (List.replicate 2147483648 (120 : Nat)).length = 2147483648 :=
    List.length_replicate 2147483648 120
  have hdec := decode_encode_huge 1007 42 (List.replicate 2147483648 120)
    (by norm_num) (by norm_num) (by rw [hrep]) (by rw [hrep]; norm_num)
    (by rw [hrep]; norm_num)
  have hdrain := drain_decode_none hdec
  simp only [feedAll, List.foldl_cons, List.foldl_nil, feedOne, List.nil_append,
    hdrain]
  exact fun h => List.noConfusion h

/-- C6 (amended): for every sequence of frames with `u16` api and flow numbers
and bodies shorter than `2^31` bytes, and every partition of the concatenated
encoded bytes into chunks (any sizes, including one byte at a time and splits
inside a header or body — while a frame is incomplete each drain returns no
frame and parks the decoder), feeding the chunks one at a time and draining
after each chunk yields exactly the frames, in order, with no duplication or
loss, ending with a fresh decoder and an empty buffer.  Feeding all bytes at
once is the one-chunk instance, so any chunking agrees with it. -/
theorem c6_chunked_decode_eq (specs : List FrameSpec) (chunks : List (List Nat))
    (hv : ∀ s ∈ specs, ValidSpec s)
    (hchunks : chunks.flatten = streamBytes specs) :
    feedAll chunks = (specs.map specFrame, RbkDecoder.new, []) := by
  unfold feedAll
  simpa using feedAll_go chunks [] RbkDecoder.new [] specs (streamBytes specs)
    (Cfg.boundary specs) hv hchunks

/-- Witness for `c6_chunked_decode_eq`: one frame split into two chunks, the
first ending inside the header. -/
theorem c6_witness :
    feedAll [[0x5A, 1, 0, 42, 0], [0, 0, 1, 3, 239, 0, 0, 0, 0, 0, 0, 120]] =
      ([⟨42, 1007, [120]⟩], RbkDecoder.new, []) :=
  c6_chunked_decode_eq [⟨1007, 42, [120]⟩] _ (by decide) (by decide)

/-- C7: `encode_request 1007 "{\"simple\":true}" 42` (body bytes spelled out)
is exactly start mark `0x5A`, version `0x01`, flow `0x00 0x2A`, the 4-byte
big-endian body length 15, api `0x03 0xEF`, six zero bytes, then the body; and
in general the header is exactly 16 bytes: the output length is
`16 + body.length`, the first 16 bytes are the header and the rest is the
body. -/
theorem c7_encode_layout :
    encode_request 1007
        [123, 34, 115, 105, 109, 112, 108, 101, 34, 58, 116, 114, 117, 101, 125]
        42 =
      [0x5A, 0x01, 0x00, 0x2A, 0, 0, 0, 15, 3, 239, 0, 0, 0, 0, 0, 0,
        123, 34, 115, 105, 109, 112, 108, 101, 34, 58, 116, 114, 117, 101, 125] ∧
    ∀ (api flow : Nat) (body : List Nat),
      (encode_request api body flow).length = 16 + body.length ∧
      (encode_request api body flow).take 16 =
        0x5A :: 0x01 :: (u16be flow ++ u32be body.length ++ u16be api ++
          [0, 0, 0, 0, 0, 0]) ∧
      (encode_request api body flow).drop 16 = body := by
  refine ⟨by decide, ?_⟩
  intro api flow body
  refine ⟨?_, rfl, rfl⟩
  simp [encode_request, u16be, u32be]
  omega

/-- C10: the decoder stores the advertised 32-bit body length in the signed
32-bit `body_size` field, whose negative values mean "header not yet parsed".
For every input whose header advertises `body_len ≥ 2^31` (and any realizable
buffer, shorter than `isize::MAX`), `decode` stores a negative `body_size`
and returns no frame, leaving the decoder in the "header unparsed" state
(`body_size < 0`), so the next call re-reads subsequent bytes as a new
header; moreover no `decode` call on a realizable buffer (with `body_size` in
`i32` range) ever returns a frame with body length `≥ 2^31`. -/
theorem c10_huge_body_len (flow len api : Nat) (rest : List Nat)
    (hf : flow < 65536) (ha : api < 65536)
    (hlo : 2147483648 ≤ len) (hhi : len < 4294967296)
    (hrest : rest.length < 9223372036854775808) :
    RbkDecoder.decode RbkDecoder.new (0x5A :: (hdrBytes flow len api ++ rest)) =
      (none, ⟨true, flow, api, i32OfU32 len⟩, rest) ∧
    i32OfU32 len < 0 ∧
    (∀ (d : RbkDecoder) (buf : List Nat) (f : RbkFrame) (d2 : RbkDecoder)
        (b2 : List Nat),
      buf.length < 9223372036854775808 →
      -2147483648 ≤ d.body_size → d.body_size < 2147483648 →
      d.decode buf = (some f, d2, b2) → f.body_str.length < 2147483648) := by
  refine ⟨?_, ?_, ?_⟩
  · rw [decode_new_scan (scanStart_cons_mark _)]
    exact decode_huge_header 0 0 flow len api rest hf ha hlo hhi hrest
  · rw [i32OfU32_neg_of_large hlo hhi]
    omega
  · intro d buf f d2 b2 h1 h2 h3 h4
    exact decode_frame_body_small h1 h2 h3 h4

/-- Witness for `c10_huge_body_len` at a concrete 16-byte input advertising a
`2^31`-byte body. -/
theorem c10_witness :
    RbkDecoder.decode RbkDecoder.new (0x5A :: (hdrBytes 1 2147483648 2 ++ [])) =
      (none, ⟨true, 1, 2, i32OfU32 2147483648⟩, []) ∧
    i32OfU32 2147483648 < 0 :=
  ⟨(c10_huge_body_len 1 2147483648 2 [] (by decide) (by decide) (by decide)
      (by decide) (by decide)).1,
    (c10_huge_body_len 1 2147483648 2 [] (by decide) (by decide) (by decide)
      (by decide) (by decide)).2.1⟩

/-! ## Port client (src/port_client.rs) -/

/-- `RbkResultKind` from `src/frame.rs`. -/
inductive RbkResultKind where
  | ok
  | noSuchRobot
  | connectFail
  | writeError
  | disposed
  | badApiNo
  | timeout
  | interrupted
deriving DecidableEq, Repr

/-- `RbkError` from `src/error.rs`. -/
inductive RbkError where
  | io (msg : String)
  | timeout
  | connectionFailed (msg : String)
  | writeError (msg : String)
  | disposed
  | badApiNo (n : Int)
  | noSuchRobot
  | parseError (msg : String)
deriving DecidableEq, Repr

/-- Modelled from the spec: `RbkRequestResult` is used by `src/port_client.rs`
(`RbkRequestResult::new(kind, host, api_no, req_str)`, `.with_error(..)`,
`.with_response(..)`) but its definition is not under `src/`.  The spec
describes the caller-facing raw result as `raw_result{kind, body, error}`
with the host, api number and request body echoed back, so it is modelled as
the record those usages force: the four constructor fields plus optional
response and error texts. -/
structure RbkRequestResult where
  kind : RbkResultKind
  host : String
  api_no : Int
  req_str : String
  response : Option String
  error : Option String
deriving DecidableEq, Repr

/-- `RbkRequestResult::new` (spec-modelled, see `RbkRequestResult`). -/
def RbkRequestResult.new (kind : RbkResultKind) (host : String) (api_no : Int)
    (req_str : String) : RbkRequestResult :=
  ⟨kind, host, api_no, req_str, none, none⟩

/-- `.with_error` (spec-modelled). -/
def RbkRequestResult.with_error (r : RbkRequestResult) (e : String) :
    RbkRequestResult :=
  { r with error := some e }

/-- `.with_response` (spec-modelled). -/
def RbkRequestResult.with_response (r : RbkRequestResult) (s : String) :
    RbkRequestResult :=
  { r with response := some s }

/-- `ClientState` from `src/port_client.rs`.  `connection : Option Connection`
holds a live TCP stream plus reader task; only its presence is representable
in a shallow embedding, so it is modelled as a `Bool`.  The `notify` wakeup
handle carries no state the claims mention and is omitted. -/
structure ClientState where
  hasConnection : Bool
  flow_no_counter : Nat
  response_map : List (Nat × String)
  disposed : Bool
deriving DecidableEq, Repr

/-- `RbkPortClient::new`'s initial state: no connection, counter `0`, empty
pending table, not disposed. -/
def ClientState.init : ClientState := ⟨false, 0, [], false⟩

/-- `ClientState::next_flow_no`: `(counter + 1) % 512`, stored and returned.
The Rust counter is a `u16`; since `(c + 1) % 512` and the u16-wrapping
result agree for every `c < 2^16` (`65536 % 512 = 0`), plain `Nat` addition
is faithful on the whole u16 range. -/
def ClientState.next_flow_no (st : ClientState) : Nat × ClientState :=
  let n := (st.flow_no_counter + 1) % 512
  (n, { st with flow_no_counter := n })

/-- Outcome of one `TcpStream::connect` attempt under its 10 s outer timeout,
as decided by the environment. -/
inductive ConnectOutcome where
  | timedOut
  | refused (msg : String)
  | ok
deriving DecidableEq, Repr

/-- What the post-write wait (the notify loop racing the request timeout)
observes: a matching response body, the disposed flag set by a concurrent
reset, or the timeout. -/
inductive AwaitOutcome where
  | response (body : String)
  | disposedMidWait
  | timedOut
deriving DecidableEq, Repr

/-- One request's interaction with the network and the background reader,
abstracted as an oracle: connect outcome, write outcome (`none` = success,
`some msg` = the I/O error text), and what the response wait observes.
Async scheduling is not shallowly embeddable; every claim about `request`
is a claim about this control flow over the oracle's answers. -/
structure NetEnv where
  connect : ConnectOutcome
  write : Option String
  await : AwaitOutcome
deriving DecidableEq, Repr

/-- `RbkPortClient::connect`: opens the TCP stream under a 10 s timeout; a
timeout maps to `RbkError::Timeout`, an OS failure to
`RbkError::ConnectionFailed`, both leaving the state unchanged; on success
the connection is installed (reader task spawned) and the disposed flag
cleared. -/
def RbkPortClient.connect (env : NetEnv) (st : ClientState) :
    Except RbkError ClientState :=
  match env.connect with
  | .timedOut => .error .timeout
  | .refused m => .error (.connectionFailed m)
  | .ok => .ok { st with hasConnection := true, disposed := false }

/-- `RbkPortClient::reset`: clear the pending table, mark disposed, take the
connection out (aborting the reader task and shutting the socket down). -/
def RbkPortClient.reset (st : ClientState) : ClientState :=
  { st with response_map := [], disposed := true, hasConnection := false }

/-- `RbkPortClient::do_request` from `src/port_client.rs`, in source order:
(1) if disposed, return an `Ok(Disposed)` result at once; (2) if there is no
connection, run `connect()`, propagating its error with `?`; (3) allocate a
flow number; (4) reject api numbers outside `0..=65535` with `Ok(BadApiNo)`;
(5) write the encoded request, turning a write error into `Ok(WriteError)`;
(6) await the response: a matching body yields `Ok(Ok + response)`, an
observed disposal yields `Ok(Disposed)`, expiry yields `Ok(Timeout)`.
The reader's insert and the waiter's matching remove cancel out on the
pending table, so the success path leaves `response_map` unchanged. -/
def RbkPortClient.do_request (env : NetEnv) (host : String) (st : ClientState)
    (api_no : Int) (req_str : String) :
    Except RbkError RbkRequestResult × ClientState :=
  if st.disposed then
    (.ok (RbkRequestResult.new .disposed host api_no req_str), st)
  else
    match (if st.hasConnection then Except.ok st
           else RbkPortClient.connect env st) with
    | .error e => (.error e, st)
    | .ok st1 =>
      let st2 := (ClientState.next_flow_no st1).2
      if api_no < 0 ∨ 65535 < api_no then
        (.ok ((RbkRequestResult.new .badApiNo host api_no req_str).with_error
          ("API number " ++ toString api_no ++ " out of valid range")), st2)
      else
        match env.write with
        | some emsg =>
          (.ok ((RbkRequestResult.new .writeError host api_no req_str).with_error
            emsg), st2)
        | none =>
          match env.await with
          | .disposedMidWait =>
            (.ok (RbkRequestResult.new .disposed host api_no req_str), st2)
          | .response body =>
            (.ok ((RbkRequestResult.new .ok host api_no req_str).with_response
              body), st2)
          | .timedOut =>
            (.ok ((RbkRequestResult.new .timeout host api_no req_str).with_error
              "Timeout"), st2)

/-- `RbkPortClient::request`: run `do_request`, then reset whenever it
returned an `Ok` result whose kind is not `Ok`.  Faithful asymmetry of the
source: an `Err` (connect failure) passes through without a reset. -/
def RbkPortClient.request (env : NetEnv) (host : String) (st : ClientState)
    (api_no : Int) (req_str : String) :
    Except RbkError RbkRequestResult × ClientState :=
  let r := RbkPortClient.do_request env host st api_no req_str
  match r.1 with
  | .ok res => if res.kind ≠ .ok then (r.1, RbkPortClient.reset r.2) else r
  | .error _ => r

/-! ## Claim theorems: port client -/

/-- C1 (code bug, evaluated): `reset` leaves `disposed = true`, and
`do_request` checks `disposed` *before* the reconnect-if-no-connection step,
so for every already-reset (disposed) state the next `request` — even with a
reachable server (`env.connect` arbitrary, never consulted) — returns a
`Disposed` result without performing `connect()`, and its own wrapper resets
again, leaving the client disposed forever.  The spec (and the claim) say the
next request reconnects from scratch so that it can succeed. -/
theorem c1_disposed_never_reconnects (env : NetEnv) (host req : String)
    (api_no : Int) (st : ClientState) (hd : st.disposed = true) :
    RbkPortClient.request env host st api_no req =
      (.ok (RbkRequestResult.new .disposed host api_no req),
        RbkPortClient.reset st) ∧
    (RbkPortClient.reset st).disposed = true ∧
    (RbkPortClient.reset st).hasConnection = false := by
  refine ⟨?_, rfl, rfl⟩
  unfold RbkPortClient.request RbkPortClient.do_request
  simp [hd, RbkRequestResult.new]

/-- Witness for `c1_disposed_never_reconnects`: the state right after a
reset of a fresh client, with an environment whose server would accept the
connection and answer. -/
theorem c1_witness :
    RbkPortClient.request ⟨.ok, none, .response "r"⟩ "h"
        (RbkPortClient.reset ClientState.init) 1000 "b" =
      (.ok (RbkRequestResult.new .disposed "h" 1000 "b"),
        RbkPortClient.reset (RbkPortClient.reset ClientState.init)) ∧
    (RbkPortClient.reset (RbkPortClient.reset ClientState.init)).disposed = true ∧
    (RbkPortClient.reset (RbkPortClient.reset ClientState.init)).hasConnection = false :=
  c1_disposed_never_reconnects ⟨.ok, none, .response "r"⟩ "h" "b" 1000
    (RbkPortClient.reset ClientState.init) (by decide)

/-- C2 (counterexample): a request with `api_no = 70000` against a healthy
connected client (`disposed = false`, live connection, one pending entry)
does reset the connection: the resulting state has the connection dropped,
the pending table cleared and the disposed flag set — not "left unchanged"
as the claim states. -/
theorem c2_counterexample :
    (RbkPortClient.request ⟨.ok, none, .response "r"⟩ "h"
        ⟨true, 0, [(3, "x")], false⟩ 70000 "b").2 =
      (⟨false, 1, [], true⟩ : ClientState) ∧
    ((⟨false, 1, [], true⟩ : ClientState) ≠ ⟨true, 0, [(3, "x")], false⟩) := by
  constructor
  · rfl
  · decide

/-- C2 (amended): a bad-API-number result triggers a connection reset, like
every non-`Ok` result kind: the `request` wrapper resets, so the connection
is dropped, the pending table cleared and the disposed flag set (the flow
counter having been bumped before validation). -/
theorem c2_bad_api_resets (env : NetEnv) (host req : String) (api_no : Int)
    (st : ClientState) (hapi : api_no < 0 ∨ 65535 < api_no)
    (hd : st.disposed = false) (hc : st.hasConnection = true) :
    RbkPortClient.request env host st api_no req =
      (.ok ((RbkRequestResult.new .badApiNo host api_no req).with_error
          ("API number " ++ toString api_no ++ " out of valid range")),
        ⟨false, (st.flow_no_counter + 1) % 512, [], true⟩) := by
  unfold RbkPortClient.request RbkPortClient.do_request RbkPortClient.reset
    ClientState.next_flow_no
  simp [hd, hc, hapi, RbkRequestResult.new, RbkRequestResult.with_error]

/-- Witness for `c2_bad_api_resets`. -/
theorem c2_witness :
    RbkPortClient.request ⟨.ok, none, .response "r"⟩ "h"
        ⟨true, 0, [(3, "x")], false⟩ 70000 "b" =
      (.ok ((RbkRequestResult.new .badApiNo "h" 70000 "b").with_error
          ("API number " ++ toString (70000 : Int) ++ " out of valid range")),
        ⟨false, 1, [], true⟩) :=
  c2_bad_api_resets ⟨.ok, none, .response "r"⟩ "h" "b" 70000
    ⟨true, 0, [(3, "x")], false⟩ (by decide) (by decide) (by decide)

lemma request_counter (env : NetEnv) (host : String) (st : ClientState)
    (api_no : Int) (req : String) :
    (RbkPortClient.request env host st api_no req).2.flow_no_counter =
        st.flow_no_counter ∨
    (RbkPortClient.request env host st api_no req).2.flow_no_counter =
        (st.flow_no_counter + 1) % 512 := by
  unfold RbkPortClient.request RbkPortClient.do_request RbkPortClient.connect
    RbkPortClient.reset ClientState.next_flow_no
  rcases env with ⟨co, w, aw⟩
  cases hd : st.disposed <;> cases hc : st.hasConnection <;>
    cases co <;> rcases w with _ | wmsg <;> cases aw <;>
    by_cases hapi : (api_no < 0 ∨ 65535 < api_no) <;>
    simp [hd, hc, hapi, RbkRequestResult.new, RbkRequestResult.with_error,
      RbkRequestResult.with_response]

/-- C8: `next_flow_no` returns `(previous counter + 1) % 512` (wrapping to 0;
this also equals the u16-wrapping result for every u16 counter value) and
stores that same value as the new counter; consequently every allocated flow
number is `< 512`, and the `counter < 512` invariant is preserved by
`request` — the only operation that changes the counter (`reset`, `connect`
and `dispose` leave it untouched). -/
theorem c8_flow_no_mod512 (st : ClientState) :
    ClientState.next_flow_no st =
      ((st.flow_no_counter + 1) % 512,
        { st with flow_no_counter := (st.flow_no_counter + 1) % 512 }) ∧
    (ClientState.next_flow_no st).1 < 512 ∧
    ∀ (env : NetEnv) (host req : String) (api_no : Int),
      st.flow_no_counter < 512 →
      (RbkPortClient.request env host st api_no req).2.flow_no_counter < 512 := by
  refine ⟨rfl, ?_, ?_⟩
  · show (st.flow_no_counter + 1) % 512 < 512
    omega
  · intro env host req api_no _
    rcases request_counter env host st api_no req with h | h <;> omega

/-- The caller-visible outcome classification of one `request` call against
state `st` under environment `env`: an `Err` happens only when the client was
neither disposed nor connected and the `connect()` attempt failed, and then
it is exactly the connect error (`Timeout` or `ConnectionFailed`); every
other outcome — including write error, request timeout, bad API number and
disposed state — is an `Ok` result echoing back the host, api number and
request body. -/
def ErrOnlyOnConnect (host : String) (api_no : Int) (req : String)
    (st : ClientState) (env : NetEnv)
    (r : Except RbkError RbkRequestResult) : Prop :=
  match r with
  | .error e =>
    st.disposed = false ∧ st.hasConnection = false ∧
    env.connect ≠ ConnectOutcome.ok ∧
    (e = RbkError.timeout ∨ ∃ m, e = RbkError.connectionFailed m)
  | .ok res => res.host = host ∧ res.api_no = api_no ∧ res.req_str = req

/-- C9: `request` returns `Err(RbkError)` only when `connect()` fails
(connect timeout or TCP-level failure); every other failure is an `Ok`
carrying a non-`Ok` kind with host, api number and request body echoed
back. -/
theorem c9_err_only_on_connect_failure (env : NetEnv) (host req : String)
    (api_no : Int) (st : ClientState) :
    ErrOnlyOnConnect host api_no req st env
      (RbkPortClient.request env host st api_no req).1 := by
  unfold ErrOnlyOnConnect RbkPortClient.request RbkPortClient.do_request
    RbkPortClient.connect RbkPortClient.reset ClientState.next_flow_no
  rcases env with ⟨co, w, aw⟩
  cases hd : st.disposed <;> cases hc : st.hasConnection <;>
    cases co <;> rcases w with _ | wmsg <;> cases aw <;>
    by_cases hapi : (api_no < 0 ∨ 65535 < api_no) <;>
    simp [hd, hc, hapi, RbkRequestResult.new, RbkRequestResult.with_error,
      RbkRequestResult.with_response]

/-- Witness for `c8_flow_no_mod512` at a connected state with counter 5. -/
theorem c8_witness :
    (RbkPortClient.request ⟨.ok, none, .response "r"⟩ "h"
        ⟨true, 5, [], false⟩ 1000 "b").2.flow_no_counter < 512 :=
  (c8_flow_no_mod512 ⟨true, 5, [], false⟩).2.2 ⟨.ok, none, .response "r"⟩
    "h" "b" 1000 (by decide)
